import Mathlib

/-!
Verification of the TEI/EpiDoc → Leiden+ transducer and its surrounding
loader, section locator and metadata extraction, shallowly embedded from
`src/streamlit_app.py`.  XML element trees are modelled by a rose tree
mirroring `xml.etree.ElementTree.Element`: a qualified tag, an attribute
mapping, optional leading text, optional tail text, and an ordered list of
children.  Python code that can raise is embedded with `Option`/`Except`
result types; a `none`/`.error` result marks a raised exception.
-/

namespace TeiApp

/-- Expands a local name to the namespace-qualified TEI tag, mirroring the
`NS` dictionary and the `'tei:...'` paths of the source. -/
def tei (nm : String) : String :=
  "\x7bhttp://www.tei-c.org/ns/1.0\x7d" ++ nm

/-- Qualified name of the reserved XML `lang` attribute. -/
def xmlLang : String :=
  "\x7bhttp://www.w3.org/XML/1998/namespace\x7dlang"

/-- Shallow embedding of `xml.etree.ElementTree.Element`: tag, attribute
list, text before the first child, tail text after this element, and the
ordered children.  `none` text mirrors Python `None`. -/
inductive Elem : Type where
  | mk (tag : String) (attrib : List (String × String)) (text : Option String)
      (tail : Option String) (children : List Elem)

def Elem.tag : Elem → String
  | .mk t _ _ _ _ => t

def Elem.attrib : Elem → List (String × String)
  | .mk _ a _ _ _ => a

def Elem.text : Elem → Option String
  | .mk _ _ x _ _ => x

def Elem.tail : Elem → Option String
  | .mk _ _ _ tl _ => tl

def Elem.children : Elem → List Elem
  | .mk _ _ _ _ cs => cs

/-- Embeds `attrib.get(k)`: the value of the first binding of `k`, `none`
when absent (attribute mappings bind each key at most once). -/
def aGet (a : List (String × String)) (k : String) : Option String :=
  (a.find? (fun p => p.1 == k)).map (fun p => p.2)

/-- Embeds `elem.attrib.get(k)`. -/
def Elem.attr (e : Elem) (k : String) : Option String :=
  aGet e.attrib k

/-- Embeds `elem.find('tei:nm', NS)`: the first direct child whose qualified
tag is the TEI-namespaced `nm`. -/
def findT (cs : List Elem) (nm : String) : Option Elem :=
  cs.find? (fun c => c.tag == tei nm)

/-- Embeds `elem.find('tei:nm', NS)` on an element. -/
def Elem.findTei (e : Elem) (nm : String) : Option Elem :=
  findT e.children nm

/-- Embeds `tag.split('\x7d')[-1]`: the part of a qualified tag after the
last closing brace (the whole tag when no brace occurs), computed by a
left fold that restarts at every closing brace. -/
def localName (tag : String) : String :=
  String.mk (tag.data.foldl (fun acc ch => if ch = '\u007d' then [] else acc ++ [ch]) [])

/-- Embeds Python f-string interpolation of a value that may be `None`:
`None` prints as the literal string `"None"`. -/
def pyFmt : Option String → String
  | none => "None"
  | some s => s

/-- Character-list whitespace strip, embedding `str.strip()` (ASCII
whitespace; the exotic Unicode whitespace Python also strips does not occur
in the modelled documents). -/
def trimChars (l : List Char) : List Char :=
  ((l.dropWhile Char.isWhitespace).reverse.dropWhile Char.isWhitespace).reverse

/-- Embeds `str.strip()`. -/
def pyStrip (s : String) : String :=
  String.mk (trimChars s.data)

/-- Decimal value of a non-empty all-digit character list, `none`
otherwise. -/
def digitsVal (ds : List Char) : Option Nat :=
  if ds ≠ [] ∧ ds.all (fun c => c.isDigit) then
    some (ds.foldl (fun acc c => acc * 10 + (c.toNat - 48)) 0)
  else none

/-- Embeds `int(s)` on a string: optional surrounding whitespace, an
optional sign, then a non-empty run of decimal digits; any other shape
raises `ValueError`, modelled as `none`.  (Underscore digit grouping and
non-ASCII digits, which CPython also accepts, do not occur in the claims
and are not modelled.) -/
def pyToInt (s : String) : Option Int :=
  match trimChars s.data with
  | '-' :: ds => (digitsVal ds).map (fun n => -(n : Int))
  | '+' :: ds => (digitsVal ds).map (fun n => (n : Int))
  | ds => (digitsVal ds).map (fun n => (n : Int))

/-- Embeds `'.' * n` for an `int` `n` (a non-positive count yields the
empty string, as in Python). -/
def dots (n : Int) : String :=
  String.mk (List.replicate n.toNat '.')

mutual

/-- Embeds `Element.itertext()` joined by `''.join(...)`: the element's own
text, then for each child its `itertext` followed by that child's tail. -/
def itertext : Elem → String
  | .mk _ _ text _ children => text.getD "" ++ itertextList children

/-- List part of `itertext`. -/
def itertextList : List Elem → String
  | [] => ""
  | c :: cs => itertext c ++ (Elem.tail c).getD "" ++ itertextList cs

end

mutual

/-- Embeds `format_leiden_text(elem)` from `src/streamlit_app.py`
(lines 163–344).  The element's own text starts the accumulator; a `div`
with a direct `tei:ab` child instead returns the rendering of that `ab`;
otherwise the children are rendered in order, each followed by its tail.
A `none` result marks a raised exception (the `int(qty or 0)` call in the
gap branch is the only raise site). -/
def formatLeiden : Elem → Option String
  | .mk tag _ text _ children =>
    if localName tag = "div" then
      match renderDivAb children with
      | some r => r
      | none => Option.map (fun s => text.getD "" ++ s) (formatChildren children)
    else Option.map (fun s => text.getD "" ++ s) (formatChildren children)

/-- Embeds `elem.find('tei:ab', NS)` fused with the recursive call
`format_leiden_text(ab_elem)`: `some r` when a direct `tei:ab` child
exists, where `r` is its (possibly raising) rendering. -/
def renderDivAb : List Elem → Option (Option String)
  | [] => none
  | c :: cs => if c.tag = tei "ab" then some (formatLeiden c) else renderDivAb cs

/-- Embeds the `for child in elem:` loop of `format_leiden_text`: each
child's branch output followed by that child's tail text. -/
def formatChildren : List Elem → Option String
  | [] => some ""
  | c :: cs =>
    match renderChild c, formatChildren cs with
    | some r, some rest => some (r ++ (Elem.tail c).getD "" ++ rest)
    | _, _ => none

/-- Embeds the per-child tag dispatch of `format_leiden_text` (the body of
the `for child in elem:` loop, without the trailing tail append).  The
`selfRender` binding inlines one unfolding of `formatLeiden` on the child
itself, used by the `textpart`, `w` and fallback branches. -/
def renderChild : Elem → Option String
  | c@(.mk ctag a text _ cs) =>
    let tag := localName ctag
    let selfRender : Option String :=
      if localName ctag = "div" then
        match renderDivAb cs with
        | some r => r
        | none => Option.map (fun s => text.getD "" ++ s) (formatChildren cs)
      else Option.map (fun s => text.getD "" ++ s) (formatChildren cs)
    if tag = "lb" then
      let n := (aGet a "n").getD ""
      if n ≠ "" then some ("\n" ++ n ++ ". ") else some "\n"
    else if tag = "div" ∧ aGet a "type" = some "textpart" then
      let n := (aGet a "n").getD ""
      Option.map (fun inner => "<D=." ++ n ++ " " ++ inner ++ " =D>") selfRender
    else if tag = "unclear" then
      some ((text.getD "").foldl (fun acc ch => acc ++ String.mk [ch, '\u0323']) "")
    else if tag = "orig" then
      some ("=" ++ text.getD "" ++ "=")
    else if tag = "supplied" then
      let reason := aGet a "reason"
      let cert := aGet a "cert"
      let sup := text.getD ""
      if reason = some "lost" then
        some ("[" ++ sup ++ (if cert = some "low" then "?" else "") ++ "]")
      else if reason = some "undefined" then some ("_[" ++ sup ++ "]_")
      else if reason = some "omitted" then some ("<" ++ sup ++ ">")
      else if reason = some "subaudible" then some ("(" ++ sup ++ ")")
      else some sup
    else if tag = "gap" then
      if aGet a "reason" = some "ellipsis" then some "..."
      else
        let unit := aGet a "unit"
        let qty := (aGet a "quantity").getD ""
        let extent := aGet a "extent"
        let precision := aGet a "precision"
        if unit = some "character" then
          if extent = some "unknown" then some "[.?]"
          else if precision = some "low" then some ("[." ++ qty ++ "]")
          else
            match (if qty = "" then some (0 : Int) else pyToInt qty) with
            | some k => some ("[" ++ dots k ++ "]")
            | none => none
        else if unit = some "line" then
          if extent = some "unknown" then some "(Lines: ? non transcribed)"
          else some ("(Lines: " ++ qty ++ " non transcribed)")
        else some ""
    else if tag = "del" then
      let inner := itertext c
      if aGet a "rend" = some "erasure" then some ("〚" ++ inner ++ "〛")
      else some inner
    else if tag = "add" then
      let place := aGet a "place"
      let inner := text.getD ""
      if place = some "overstrike" then some ("《" ++ inner ++ "》")
      else if place = some "above" then some ("`" ++ inner ++ "´")
      else if place = some "below" then some ("/" ++ inner ++ "\\")
      else some inner
    else if tag = "choice" then
      match findT cs "corr", findT cs "sic", findT cs "reg", findT cs "orig" with
      | some co, some si, _, _ =>
        some ("<" ++ pyFmt co.text ++ "|corr|" ++ pyFmt si.text ++ ">")
      | _, _, some rg, some og =>
        some ("<" ++ pyFmt og.text ++ "|reg|" ++ pyFmt rg.text ++ ">")
      | _, _, _, _ => some (itertext c)
    else if tag = "hi" then
      let rend := aGet a "rend"
      let inner := text.getD ""
      if rend = some "apex" then some (inner ++ "(΄)")
      else if rend = some "supraline" then some (inner ++ "¯")
      else if rend = some "ligature" then some (inner ++ "\u0361")
      else some inner
    else if tag = "expan" then
      match findT cs "abbr", findT cs "ex" with
      | some ab, some exEl =>
        some ((ab.text.getD "") ++ "(" ++ (exEl.text.getD "")
          ++ (if exEl.attr "cert" = some "low" then "?" else "") ++ ")")
      | _, _ => some ""
    else if tag = "interp" then some " · "
    else if tag = "abbr" ∨ tag = "ex" ∨ tag = "num" then
      some (text.getD "")
    else if tag = "g" then
      match aGet a "type" with
      | some ty => if ty ≠ "" then some ("*" ++ ty ++ "*") else some ""
      | none => some ""
    else if tag = "surplus" then
      some ("\x7b" ++ text.getD "" ++ "\x7d")
    else if tag = "note" then
      let note := text.getD ""
      if note = "!" ∨ note = "sic" ∨ note = "e.g." then some ("/*" ++ note ++ "*/")
      else some ("(" ++ note ++ ")")
    else if tag = "space" then
      let unit := aGet a "unit"
      let qty := aGet a "quantity"
      let extent := aGet a "extent"
      if unit = some "character" then
        if extent = some "unknown" then some "vac.?" else some ("vac." ++ pyFmt qty)
      else if unit = some "line" then
        if extent = some "unknown" then some "vac.?lin"
        else some ("vac." ++ pyFmt qty ++ "lin")
      else some ""
    else if tag = "w" then selfRender
    else selfRender

end

/-! ## XML loader and batch loop -/

/-- Uploaded stream as seen after `ET.parse`: either a well-formed tree or
a raised `ET.ParseError` carrying a message. -/
inductive RawFile : Type where
  | malformed (name msg : String)
  | wellFormed (name : String) (root : Elem)

/-- Diagnostics surfaced through `st.warning` (advisory) and `st.error`
(fatal for the document). -/
inductive Diag : Type where
  | warning (msg : String)
  | err (msg : String)
deriving DecidableEq

/-- Embeds `parse_tei(file)` (lines 134–161): a `ParseError` is caught and
reported as an error with no document; a well-formed tree whose root tag is
not the namespaced `TEI` is reported with a warning and no document; an
accepted tree is returned together with warnings for a missing `teiHeader`
or `text` section.  (The returned `raw_xml` string is not modelled; the
claims only concern the returned root and the diagnostics.) -/
def parseTei : RawFile → Option Elem × List Diag
  | .malformed name msg =>
    (none, [Diag.err ("XML Parsing Error in file " ++ name ++ ": " ++ msg)])
  | .wellFormed name root =>
    if root.tag ≠ tei "TEI" then
      (none, [Diag.warning ("Warning: File " ++ name
        ++ " doesn't appear to be a valid TEI document. Root element is " ++ root.tag)])
    else
      let w1 := if (root.findTei "teiHeader").isNone
        then [Diag.warning ("Warning: File " ++ name ++ " is missing teiHeader section")]
        else []
      let w2 := if (root.findTei "text").isNone
        then [Diag.warning ("Warning: File " ++ name ++ " is missing text section")]
        else []
      (some root, w1 ++ w2)

/-- Embeds the upload loop of the visualization tab (lines 451–460): each
file is parsed; only files whose parse returned a root are appended to
`parsed_files`; diagnostics accumulate in order. -/
def processBatch : List RawFile → List Elem × List Diag
  | [] => ([], [])
  | f :: fs =>
    let (r, ds) := parseTei f
    let (rest, restDs) := processBatch fs
    (match r with
     | some root => root :: rest
     | none => rest, ds ++ restDs)

/-! ## Section locator -/

/-- References to the five typed divisions collected by the locator loop. -/
structure Sections : Type where
  edition : Option Elem
  apparatus : Option Elem
  translation : Option Elem
  commentary : Option Elem
  bibliography : Option Elem

/-- Embeds `body_elem.findall("tei:div", NS)`: all direct children whose
qualified tag is the TEI `div`, in document order. -/
def teiDivs (body : Elem) : List Elem :=
  body.children.filter (fun c => c.tag == tei "div")

/-- Embeds one iteration of the locator loop (lines 602–614): the matching
section variable is overwritten with the current division. -/
def assignDiv (s : Sections) (d : Elem) : Sections :=
  let dt := (d.attr "type").getD ""
  match s with
  | ⟨e, ap, tr, cm, bi⟩ =>
    if dt = "edition" then ⟨some d, ap, tr, cm, bi⟩
    else if dt = "apparatus" then ⟨e, some d, tr, cm, bi⟩
    else if dt = "translation" then ⟨e, ap, some d, cm, bi⟩
    else if dt = "commentary" then ⟨e, ap, tr, some d, bi⟩
    else if dt = "bibliography" then ⟨e, ap, tr, cm, some d⟩
    else ⟨e, ap, tr, cm, bi⟩

/-- Embeds the locator loop over the body's divisions: every variable starts
as `None` and later matches overwrite earlier ones. -/
def locateSections (body : Elem) : Sections :=
  (teiDivs body).foldl assignDiv ⟨none, none, none, none, none⟩

/-! ## Metadata field extraction (visualization tab, lines 509–545) -/

/-- Embeds the guarded chaining pattern
`x.find("tei:nm", NS) if x is not None else None`. -/
def chainFind (o : Option Elem) (nm : String) : Option Elem :=
  o.bind (fun e => e.findTei nm)

/-- Embeds the guarded text pattern
`el.text.strip() if el is not None and el.text else d`: the default is used
when the element is absent or its text is `None` or empty. -/
def textOrDefault (el : Option Elem) (d : String) : String :=
  match el with
  | none => d
  | some e =>
    match e.text with
    | none => d
    | some s => if s = "" then d else pyStrip s

/-- Embeds line 515–516: object type from `support`, defaulting to the
sentinel `"Not available"`. -/
def extractObjectType (support : Option Elem) : String :=
  textOrDefault (chainFind support "objectType") "Not available"

/-- Embeds line 519–520: material from `support`, defaulting to the
sentinel `"Not available"`. -/
def extractMaterial (support : Option Elem) : String :=
  textOrDefault (chainFind support "material") "Not available"

/-- Embeds one of lines 538–540, e.g.
`dimensions.find("tei:height", NS).text.strip() if dimensions is not None
and dimensions.find("tei:height", NS) is not None else ""`: the guard only
checks that the element exists, so a present-but-empty element reaches
`.text.strip()` with `text` equal to `None`, raising `AttributeError`
(modelled as `.error`). -/
def dimField (dims : Option Elem) (nm : String) : Except String String :=
  match dims with
  | none => Except.ok ""
  | some d =>
    match d.findTei nm with
    | none => Except.ok ""
    | some h =>
      match h.text with
      | none => Except.error
          ("AttributeError: NoneType object has no attribute strip, at tei:" ++ nm)
      | some s => Except.ok (pyStrip s)

/-- Embeds lines 537–540: the three dimension fields extracted in sequence
from the `support` element; the first raise aborts the extraction, as an
uncaught exception would abort the rendering of the document. -/
def extractDimensions (support : Option Elem) : Except String (String × String × String) :=
  let dims := chainFind support "dimensions"
  match dimField dims "height" with
  | Except.error e => Except.error e
  | Except.ok h =>
    match dimField dims "width" with
    | Except.error e => Except.error e
    | Except.ok w =>
      match dimField dims "depth" with
      | Except.error e => Except.error e
      | Except.ok d => Except.ok (h, w, d)

/-- Embeds lines 542–545: letter height through `handDesc`/`handNote`,
guarded both on presence and on non-empty text, defaulting to `""`. -/
def extractLetterSize (physDesc : Option Elem) : String :=
  let handNote := chainFind (chainFind physDesc "handDesc") "handNote"
  textOrDefault (chainFind handNote "height") ""

/-! ## Specification-side vocabulary used by the claims -/

/-- The Leiden contribution of one child of the loop: its branch rendering
immediately followed by its own tail text. -/
def childUnit (c : Elem) : Option String :=
  (renderChild c).map (fun r => r ++ (Elem.tail c).getD "")

/-- Concatenates a list of possibly-failing strings, failing when any
entry fails. -/
def seqConcat : List (Option String) → Option String
  | [] => some ""
  | o :: os => o.bind (fun s => (seqConcat os).map (fun rest => s ++ rest))

/-- Decides whether `pat` starts `s`, over character lists. -/
def startsChars : List Char → List Char → Bool
  | [], _ => true
  | _ :: _, [] => false
  | p :: ps, q :: qs => p == q && startsChars ps qs

/-- Decides whether `pat` occurs somewhere in `s`, over character lists. -/
def occursChars (pat : List Char) : List Char → Bool
  | [] => pat.isEmpty
  | q :: qs => startsChars pat (q :: qs) || occursChars pat qs

/-- Decides whether `pat` occurs in `s` as a contiguous substring. -/
def occursIn (pat s : String) : Bool :=
  occursChars pat.data s.data

/-- Safety of the one raise site of the transducer: a `gap` node whose
rendering reaches `int(qty or 0)` must carry an empty, absent or
integer-parsable `quantity`. -/
def gapOk (e : Elem) : Bool :=
  if localName e.tag = "gap" then
    if e.attr "reason" = some "ellipsis" then true
    else if e.attr "unit" = some "character" then
      if e.attr "extent" = some "unknown" then true
      else if e.attr "precision" = some "low" then true
      else
        let qty := (e.attr "quantity").getD ""
        (qty == "") || (pyToInt qty).isSome
    else true
  else true

mutual

/-- Every node of the tree satisfies `gapOk`. -/
def treeOk : Elem → Bool
  | e@(.mk _ _ _ _ cs) => gapOk e && listOk cs

/-- Every node of every tree of the list satisfies `gapOk`. -/
def listOk : List Elem → Bool
  | [] => true
  | c :: cs => treeOk c && listOk cs

end

/-! ## Helper lemmas -/

theorem sizeOf_children_lt (t : String) (a : List (String × String))
    (x tl : Option String) (cs : List Elem) :
    sizeOf cs < sizeOf (Elem.mk t a x tl cs) := by
  simp only [Elem.mk.sizeOf_spec]
  omega

/-- Strong induction over element trees: to prove a property of every
element it suffices to prove it for a node given it for all its children. -/
theorem Elem.induct (P : Elem → Prop)
    (h : ∀ t a x tl cs, (∀ c ∈ cs, P c) → P (Elem.mk t a x tl cs)) :
    ∀ e, P e := by
  have key : ∀ n (e : Elem), sizeOf e ≤ n → P e := by
    intro n
    induction n with
    | zero =>
      intro e he
      cases e with
      | mk t a x tl cs =>
        simp only [Elem.mk.sizeOf_spec] at he
        omega
    | succ n ih =>
      intro e he
      cases e with
      | mk t a x tl cs =>
        apply h
        intro c hc
        apply ih
        have h1 := List.sizeOf_lt_of_mem hc
        have h2 := sizeOf_children_lt t a x tl cs
        simp only [Elem.mk.sizeOf_spec] at he
        omega
  exact fun e => key (sizeOf e) e (le_refl _)

theorem renderDivAb_eq (cs : List Elem) :
    renderDivAb cs = (findT cs "ab").map formatLeiden := by
  induction cs with
  | nil => rfl
  | cons c cs ih =>
    by_cases h : c.tag = tei "ab"
    · simp [renderDivAb, findT, List.find?, h]
    · have hb : (c.tag == tei "ab") = false := by
        simpa using h
      simp [renderDivAb, findT, List.find?, h, hb] at ih ⊢
      exact ih

theorem formatChildren_eq_seq (cs : List Elem) :
    formatChildren cs = seqConcat (cs.map childUnit) := by
  induction cs with
  | nil => rfl
  | cons c cs ih =>
    simp only [formatChildren, List.map, seqConcat, ih, childUnit]
    cases hr : renderChild c with
    | none => rfl
    | some r =>
      cases hrest : seqConcat (cs.map childUnit) with
      | none => simp
      | some rest => simp [String.append_assoc]

/-- Definitional unfolding of `renderChild` on a destructured element,
fully inlined (no local bindings), with the inlined `selfRender` expression
recognized as `formatLeiden` applied to the child itself (the two are
definitionally equal by one unfolding of `formatLeiden`). -/
theorem renderChild_eq (ctag : String) (a : List (String × String))
    (x tl : Option String) (cs : List Elem) :
    renderChild (Elem.mk ctag a x tl cs) =
      (if localName ctag = "lb" then
         if (aGet a "n").getD "" ≠ "" then
           some ("\n" ++ (aGet a "n").getD "" ++ ". ")
         else some "\n"
       else if localName ctag = "div" ∧ aGet a "type" = some "textpart" then
         Option.map
           (fun inner => "<D=." ++ (aGet a "n").getD "" ++ " " ++ inner ++ " =D>")
           (formatLeiden (Elem.mk ctag a x tl cs))
       else if localName ctag = "unclear" then
         some ((x.getD "").foldl (fun acc ch => acc ++ String.mk [ch, '\u0323']) "")
       else if localName ctag = "orig" then
         some ("=" ++ x.getD "" ++ "=")
       else if localName ctag = "supplied" then
         if aGet a "reason" = some "lost" then
           some ("[" ++ x.getD ""
             ++ (if aGet a "cert" = some "low" then "?" else "") ++ "]")
         else if aGet a "reason" = some "undefined" then
           some ("_[" ++ x.getD "" ++ "]_")
         else if aGet a "reason" = some "omitted" then
           some ("<" ++ x.getD "" ++ ">")
         else if aGet a "reason" = some "subaudible" then
           some ("(" ++ x.getD "" ++ ")")
         else some (x.getD "")
       else if localName ctag = "gap" then
         if aGet a "reason" = some "ellipsis" then some "..."
         else if aGet a "unit" = some "character" then
           if aGet a "extent" = some "unknown" then some "[.?]"
           else if aGet a "precision" = some "low" then
             some ("[." ++ (aGet a "quantity").getD "" ++ "]")
           else
             match (if (aGet a "quantity").getD "" = "" then some (0 : Int)
                    else pyToInt ((aGet a "quantity").getD "")) with
             | some k => some ("[" ++ dots k ++ "]")
             | none => none
         else if aGet a "unit" = some "line" then
           if aGet a "extent" = some "unknown" then
             some "(Lines: ? non transcribed)"
           else some ("(Lines: " ++ (aGet a "quantity").getD "" ++ " non transcribed)")
         else some ""
       else if localName ctag = "del" then
         if aGet a "rend" = some "erasure" then
           some ("\u301a" ++ itertext (Elem.mk ctag a x tl cs) ++ "\u301b")
         else some (itertext (Elem.mk ctag a x tl cs))
       else if localName ctag = "add" then
         if aGet a "place" = some "overstrike" then
           some ("\u300a" ++ x.getD "" ++ "\u300b")
         else if aGet a "place" = some "above" then
           some ("`" ++ x.getD "" ++ "\u00b4")
         else if aGet a "place" = some "below" then
           some ("/" ++ x.getD "" ++ "\\")
         else some (x.getD "")
       else if localName ctag = "choice" then
         match findT cs "corr", findT cs "sic", findT cs "reg", findT cs "orig" with
         | some co, some si, _, _ =>
           some ("<" ++ pyFmt co.text ++ "|corr|" ++ pyFmt si.text ++ ">")
         | _, _, some rg, some og =>
           some ("<" ++ pyFmt og.text ++ "|reg|" ++ pyFmt rg.text ++ ">")
         | _, _, _, _ => some (itertext (Elem.mk ctag a x tl cs))
       else if localName ctag = "hi" then
         if aGet a "rend" = some "apex" then some (x.getD "" ++ "(\u0384)")
         else if aGet a "rend" = some "supraline" then some (x.getD "" ++ "\u00af")
         else if aGet a "rend" = some "ligature" then some (x.getD "" ++ "\u0361")
         else some (x.getD "")
       else if localName ctag = "expan" then
         match findT cs "abbr", findT cs "ex" with
         | some ab, some exEl =>
           some ((ab.text.getD "") ++ "(" ++ (exEl.text.getD "")
             ++ (if exEl.attr "cert" = some "low" then "?" else "") ++ ")")
         | _, _ => some ""
       else if localName ctag = "interp" then some " \u00b7 "
       else if localName ctag = "abbr" ∨ localName ctag = "ex" ∨ localName ctag = "num" then
         some (x.getD "")
       else if localName ctag = "g" then
         match aGet a "type" with
         | some ty => if ty ≠ "" then some ("*" ++ ty ++ "*") else some ""
         | none => some ""
       else if localName ctag = "surplus" then
         some ("\x7b" ++ x.getD "" ++ "\x7d")
       else if localName ctag = "note" then
         if x.getD "" = "!" ∨ x.getD "" = "sic" ∨ x.getD "" = "e.g." then
           some ("/*" ++ x.getD "" ++ "*/")
         else some ("(" ++ x.getD "" ++ ")")
       else if localName ctag = "space" then
         if aGet a "unit" = some "character" then
           if aGet a "extent" = some "unknown" then some "vac.?"
           else some ("vac." ++ pyFmt (aGet a "quantity"))
         else if aGet a "unit" = some "line" then
           if aGet a "extent" = some "unknown" then some "vac.?lin"
           else some ("vac." ++ pyFmt (aGet a "quantity") ++ "lin")
         else some ""
       else if localName ctag = "w" then formatLeiden (Elem.mk ctag a x tl cs)
       else formatLeiden (Elem.mk ctag a x tl cs)) := rfl

theorem listOk_of_mem {cs : List Elem} {c : Elem}
    (hok : listOk cs = true) (hm : c ∈ cs) : treeOk c = true := by
  induction cs with
  | nil => cases hm
  | cons d cs ih =>
    simp only [listOk, Bool.and_eq_true] at hok
    cases hm with
    | head => exact hok.1
    | tail _ hm => exact ih hok.2 hm

theorem treeOk_parts {t : String} {a : List (String × String)}
    {x tl : Option String} {cs : List Elem}
    (h : treeOk (Elem.mk t a x tl cs) = true) :
    gapOk (Elem.mk t a x tl cs) = true ∧ listOk cs = true := by
  simpa [treeOk, Bool.and_eq_true] using h

theorem renderChild_ok (e : Elem)
    (hself : treeOk e = true → (formatLeiden e).isSome = true)
    (hok : treeOk e = true) : (renderChild e).isSome = true := by
  have hfl := hself hok
  cases e with
  | mk ctag a x tl cs =>
    have hgap := (treeOk_parts hok).1
    simp only [gapOk, Elem.attr, Elem.attrib, Elem.tag] at hgap
    rw [renderChild_eq]
    by_cases h1 : localName ctag = "lb"
    · rw [if_pos h1]
      split <;> rfl
    rw [if_neg h1]
    by_cases h2 : localName ctag = "div" ∧ aGet a "type" = some "textpart"
    · rw [if_pos h2]
      simp only [Option.isSome_map']
      exact hfl
    rw [if_neg h2]
    by_cases h3 : localName ctag = "unclear"
    · rw [if_pos h3]; rfl
    rw [if_neg h3]
    by_cases h4 : localName ctag = "orig"
    · rw [if_pos h4]; rfl
    rw [if_neg h4]
    by_cases h5 : localName ctag = "supplied"
    · rw [if_pos h5]
      split <;> try rfl
      split <;> try rfl
      split <;> try rfl
      split <;> rfl
    rw [if_neg h5]
    by_cases h6 : localName ctag = "gap"
    · rw [if_pos h6]
      rw [if_pos h6] at hgap
      by_cases hre : aGet a "reason" = some "ellipsis"
      · rw [if_pos hre]; rfl
      rw [if_neg hre] at hgap ⊢
      by_cases hu : aGet a "unit" = some "character"
      · rw [if_pos hu] at hgap ⊢
        by_cases hex : aGet a "extent" = some "unknown"
        · rw [if_pos hex]; rfl
        rw [if_neg hex] at hgap ⊢
        by_cases hp : aGet a "precision" = some "low"
        · rw [if_pos hp]; rfl
        rw [if_neg hp] at hgap ⊢
        by_cases hq : (aGet a "quantity").getD "" = ""
        · rw [if_pos hq]; rfl
        rw [if_neg hq]
        have hq2 : ((aGet a "quantity").getD "" == "") = false := by
          simpa using hq
        rw [hq2, Bool.false_or] at hgap
        obtain ⟨k, hk⟩ := Option.isSome_iff_exists.mp hgap
        rw [hk]
        rfl
      rw [if_neg hu]
      by_cases hl : aGet a "unit" = some "line"
      · rw [if_pos hl]
        split <;> rfl
      rw [if_neg hl]; rfl
    rw [if_neg h6]
    by_cases h7 : localName ctag = "del"
    · rw [if_pos h7]
      split <;> rfl
    rw [if_neg h7]
    by_cases h8 : localName ctag = "add"
    · rw [if_pos h8]
      split <;> try rfl
      split <;> try rfl
      split <;> rfl
    rw [if_neg h8]
    by_cases h9 : localName ctag = "choice"
    · rw [if_pos h9]
      cases hco : findT cs "corr" <;> cases hsi : findT cs "sic" <;>
        cases hrg : findT cs "reg" <;> cases hog : findT cs "orig" <;> rfl
    rw [if_neg h9]
    by_cases h10 : localName ctag = "hi"
    · rw [if_pos h10]
      split <;> try rfl
      split <;> try rfl
      split <;> rfl
    rw [if_neg h10]
    by_cases h11 : localName ctag = "expan"
    · rw [if_pos h11]
      cases hab : findT cs "abbr" <;> cases hex : findT cs "ex" <;> rfl
    rw [if_neg h11]
    by_cases h12 : localName ctag = "interp"
    · rw [if_pos h12]; rfl
    rw [if_neg h12]
    by_cases h13 : localName ctag = "abbr" ∨ localName ctag = "ex" ∨ localName ctag = "num"
    · rw [if_pos h13]; rfl
    rw [if_neg h13]
    by_cases h14 : localName ctag = "g"
    · rw [if_pos h14]
      cases hty : aGet a "type" with
      | none => rfl
      | some ty =>
        show (if ty ≠ "" then some ("*" ++ ty ++ "*") else (some "" : Option String)).isSome = true
        split <;> rfl
    rw [if_neg h14]
    by_cases h15 : localName ctag = "surplus"
    · rw [if_pos h15]; rfl
    rw [if_neg h15]
    by_cases h16 : localName ctag = "note"
    · rw [if_pos h16]
      split <;> rfl
    rw [if_neg h16]
    by_cases h17 : localName ctag = "space"
    · rw [if_pos h17]
      split
      · split <;> rfl
      split
      · split <;> rfl
      rfl
    rw [if_neg h17]
    by_cases h18 : localName ctag = "w"
    · rw [if_pos h18]; exact hfl
    rw [if_neg h18]; exact hfl

/-- Definitional unfolding of `formatLeiden` on a destructured element. -/
theorem formatLeiden_eq (t : String) (a : List (String × String))
    (x tl : Option String) (cs : List Elem) :
    formatLeiden (Elem.mk t a x tl cs) =
      (if localName t = "div" then
         match renderDivAb cs with
         | some r => r
         | none => Option.map (fun s => x.getD "" ++ s) (formatChildren cs)
       else Option.map (fun s => x.getD "" ++ s) (formatChildren cs)) := rfl

theorem formatChildren_ok (cs : List Elem)
    (h : ∀ c ∈ cs, treeOk c = true → (formatLeiden c).isSome = true)
    (hok : listOk cs = true) : (formatChildren cs).isSome = true := by
  induction cs with
  | nil => rfl
  | cons c cs ih =>
    simp only [listOk, Bool.and_eq_true] at hok
    have hc : (renderChild c).isSome = true :=
      renderChild_ok c (h c (List.mem_cons_self c cs)) hok.1
    have hcs : (formatChildren cs).isSome = true :=
      ih (fun d hd => h d (List.mem_cons_of_mem c hd)) hok.2
    obtain ⟨r, hr⟩ := Option.isSome_iff_exists.mp hc
    obtain ⟨rest, hrest⟩ := Option.isSome_iff_exists.mp hcs
    simp only [formatChildren, hr, hrest]
    rfl

/-! ## Claim C1 — tail text emitted exactly once after each child -/

/-- TEI `ab` element with text `"x"` and tail `"TAIL"`. -/
def c1Ab : Elem := Elem.mk (tei "ab") [] (some "x") (some "TAIL") []

/-- TEI `div` element with its own text `"D"` whose sole child is `c1Ab`. -/
def c1Div : Elem := Elem.mk (tei "div") [] (some "D") none [c1Ab]

/-- Claim C1 is refuted: rendering a division whose inner text container
(`ab`) is recursed into drops the `ab` child's tail text (and the
division's own leading text) — the output is exactly `"x"`, in which the
tail `"TAIL"` does not occur at all, rather than occurring exactly once. -/
theorem C1_counterexample :
    formatLeiden c1Div = some "x" ∧ Elem.tail c1Ab = some "TAIL" ∧
      occursIn "TAIL" "x" = false :=
  ⟨rfl, rfl, rfl⟩

/-- Claim C1, amended: for every element that is not a division with a
direct `ab` child, the output of `formatLeiden` is the element's own text
followed, in document order, by each child's rendering immediately followed
by that child's tail text, each tail emitted exactly once; when the element
is a division with a direct `ab` child, only the `ab` subtree is rendered
and the tails of the division's children are dropped. -/
theorem C1_tail_once (e : Elem)
    (h : ¬(localName e.tag = "div" ∧ (e.findTei "ab").isSome = true)) :
    formatLeiden e =
      Option.map (fun s => e.text.getD "" ++ s)
        (seqConcat (e.children.map childUnit)) := by
  cases e with
  | mk t a x tl cs =>
    simp only [Elem.tag, Elem.findTei, Elem.children, Elem.text] at h ⊢
    rw [formatLeiden_eq]
    by_cases hd : localName t = "div"
    · have hiss : (findT cs "ab").isSome = false := by
        cases hfa : findT cs "ab" with
        | none => rfl
        | some cAb => exact absurd ⟨hd, by simp [Elem.findTei, hfa]⟩ h
      have hnone : renderDivAb cs = none := by
        rw [renderDivAb_eq]
        cases hfa : findT cs "ab" with
        | none => rfl
        | some cAb => rw [hfa] at hiss; simp at hiss
      rw [if_pos hd, hnone, formatChildren_eq_seq]
    · rw [if_neg hd, formatChildren_eq_seq]

/-- Line-break child with tail text, used to witness the amended C1. -/
def c1Lb : Elem := Elem.mk (tei "lb") [("n", "2")] none (some "rest") []

/-- Word element whose children carry tails. -/
def c1W : Elem := Elem.mk (tei "w") [] (some "t ") none [c1Lb]

theorem C1_tail_once_witness :
    ¬(localName (Elem.tag c1W) = "div" ∧ ((c1W.findTei "ab").isSome = true)) ∧
      formatLeiden c1W =
        Option.map (fun s => (Elem.text c1W).getD "" ++ s)
          (seqConcat ((Elem.children c1W).map childUnit)) :=
  ⟨by decide, C1_tail_once c1W (by decide)⟩

/-! ## Claim C2 — totality of the transducer -/

/-- Character gap carrying the non-numeric quantity `"abc"`. -/
def c2Gap : Elem := Elem.mk (tei "gap") [("unit", "character"), ("quantity", "abc")] none none []

/-- Inscription text block containing `c2Gap`. -/
def c2Bad : Elem := Elem.mk (tei "ab") [] (some "t") none [c2Gap]

/-- Claim C2 is refuted: on a tree containing a character gap with the
non-numeric quantity attribute `"abc"` (no unknown extent, no low
precision), `format_leiden_text` does not return a string — the
`int(qty or 0)` call raises `ValueError`, modelled here as `none`. -/
theorem C2_counterexample : formatLeiden c2Bad = none := rfl

/-- Claim C2, amended: `format_leiden_text` terminates and returns a string
on every tree in which each `gap` node that reaches the dot-counting branch
(local name `gap`, reason not `ellipsis`, unit `character`, extent not
`unknown`, precision not `low`) carries an absent, empty, or
integer-parsable `quantity` attribute; a non-numeric quantity in that
branch raises `ValueError`. -/
theorem C2_totality (e : Elem) (hok : treeOk e = true) :
    (formatLeiden e).isSome = true := by
  induction e using Elem.induct with
  | _ t a x tl cs ih =>
    obtain ⟨hg, hl⟩ := treeOk_parts hok
    rw [formatLeiden_eq]
    have hfc : (formatChildren cs).isSome = true :=
      formatChildren_ok cs (fun c hm hc => ih c hm hc) hl
    by_cases hdiv : localName t = "div"
    · rw [if_pos hdiv]
      cases hab : renderDivAb cs with
      | none =>
        simp only [Option.isSome_map']
        exact hfc
      | some r =>
        have heq := renderDivAb_eq cs
        rw [hab] at heq
        cases hfind : findT cs "ab" with
        | none => rw [hfind] at heq; simp at heq
        | some cAb =>
          rw [hfind] at heq
          simp only [Option.map_some'] at heq
          have hm : cAb ∈ cs := List.mem_of_find?_eq_some hfind
          have hca : treeOk cAb = true := listOk_of_mem hl hm
          have hres := ih cAb hm hca
          have hr : r = formatLeiden cAb := Option.some.inj heq
          show r.isSome = true
          rw [hr]
          exact hres
    · rw [if_neg hdiv]
      simp only [Option.isSome_map']
      exact hfc

/-- Well-quantified tree: a numbered gap of three characters inside an
`ab` block. -/
def c2Good : Elem := Elem.mk (tei "ab") []
  (some "t") none [Elem.mk (tei "gap") [("unit", "character"), ("quantity", "3")] none none []]

theorem C2_totality_witness :
    treeOk c2Good = true ∧ (formatLeiden c2Good).isSome = true :=
  ⟨rfl, C2_totality c2Good rfl⟩

/-! ## Claim C3 — line-break rendering -/

/-- Line break carrying the explicit no-break flag and no number. -/
def c3Lb : Elem := Elem.mk (tei "lb") [("break", "no")] none none []

/-- Claim C3 is refuted: a line-break element with `break="no"` is not
suppressed — the `lb` branch never reads the `break` attribute, so the
element still contributes a newline. -/
theorem C3_counterexample :
    renderChild c3Lb = some "\n" ∧ renderChild c3Lb ≠ some "" ∧
      Elem.attr c3Lb "break" = some "no" :=
  ⟨rfl, by decide, rfl⟩

/-- Claim C3, amended: a line-break element contributes `"\n" ++ n ++ ". "`
when its `n` attribute is present and non-empty and `"\n"` otherwise,
regardless of any `break` attribute (the attribute list is universally
quantified, so `break="no"` has no effect and is never suppressed). -/
theorem C3_lb (a : List (String × String)) (x tl : Option String) (cs : List Elem) :
    (aGet a "n" = none → renderChild (Elem.mk (tei "lb") a x tl cs) = some "\n") ∧
    (aGet a "n" = some "" → renderChild (Elem.mk (tei "lb") a x tl cs) = some "\n") ∧
    (∀ nv, aGet a "n" = some nv → nv ≠ "" →
      renderChild (Elem.mk (tei "lb") a x tl cs) = some ("\n" ++ nv ++ ". ")) := by
  have hlb : localName (tei "lb") = "lb" := rfl
  refine ⟨?_, ?_, ?_⟩
  · intro h
    rw [renderChild_eq, if_pos hlb, h]
    rfl
  · intro h
    rw [renderChild_eq, if_pos hlb, h]
    rfl
  · intro nv h hnv
    rw [renderChild_eq, if_pos hlb, h]
    show (if nv ≠ "" then _ else _) = _
    rw [if_pos hnv]
    rfl

theorem C3_lb_witness :
    renderChild (Elem.mk (tei "lb") [("break", "no")] none none []) = some "\n" ∧
      renderChild (Elem.mk (tei "lb") [("n", "5")] none none []) = some ("\n" ++ "5" ++ ". ") :=
  ⟨(C3_lb [("break", "no")] none none []).1 rfl,
   (C3_lb [("n", "5")] none none []).2.2 "5" rfl (by decide)⟩

/-! ## Claim C4 — loader behavior on invalid root / missing sections -/

/-- Well-formed root whose qualified name is the unnamespaced `TEI`. -/
def c4Bad : Elem := Elem.mk "TEI" [] none none []

/-- Well-formed root with the expected namespaced `TEI` tag (and no header
or text section). -/
def c4Good : Elem := Elem.mk (tei "TEI") [] none none []

/-- Claim C4 is refuted for the root-mismatch half: when the root element's
qualified name is not the namespaced `TEI`, `parse_tei` returns no document
at all (`None`), so the file is skipped rather than processed by
best-effort extraction. -/
theorem C4_counterexample :
    (parseTei (RawFile.wellFormed "doc.xml" c4Bad)).fst = none := rfl

/-- Claim C4, amended: when the header or the text section is absent the
loader emits only advisory warnings and still returns the document, but
when the root's qualified name does not match the TEI root the loader emits
a single advisory warning and returns no document — that file is skipped,
not processed best-effort. -/
theorem C4_loader (name : String) (root : Elem) :
    (root.tag = tei "TEI" →
      (parseTei (RawFile.wellFormed name root)).fst = some root ∧
      ∀ d ∈ (parseTei (RawFile.wellFormed name root)).snd, ∃ m, d = Diag.warning m) ∧
    (root.tag ≠ tei "TEI" →
      (parseTei (RawFile.wellFormed name root)).fst = none ∧
      ∃ m, (parseTei (RawFile.wellFormed name root)).snd = [Diag.warning m]) := by
  constructor
  · intro h
    have hne : ¬(root.tag ≠ tei "TEI") := by simp [h]
    simp only [parseTei]
    rw [if_neg hne]
    refine ⟨rfl, ?_⟩
    intro d hd
    simp only [List.mem_append] at hd
    rcases hd with hd | hd
    · split at hd
      · exact ⟨_, by simpa using hd⟩
      · simp at hd
    · split at hd
      · exact ⟨_, by simpa using hd⟩
      · simp at hd
  · intro h
    simp only [parseTei]
    rw [if_pos h]
    exact ⟨rfl, ⟨_, rfl⟩⟩

theorem C4_loader_witness :
    (parseTei (RawFile.wellFormed "a.xml" c4Good)).fst = some c4Good ∧
      (parseTei (RawFile.wellFormed "b.xml" c4Bad)).fst = none :=
  ⟨((C4_loader "a.xml" c4Good).1 rfl).1,
   ((C4_loader "b.xml" c4Bad).2 (by decide)).1⟩

/-! ## Claim C5 — metadata extraction on present-but-empty elements -/

/-- Dimensions block containing a height element that is present but
carries no text (`<height/>`). -/
def c5Dims : Elem := Elem.mk (tei "dimensions") [] none none
  [Elem.mk (tei "height") [] none none []]

/-- Support element with the empty-height dimensions block and a material
element with surrounding whitespace. -/
def c5Support : Elem := Elem.mk (tei "support") [] none none
  [c5Dims, Elem.mk (tei "material") [] (some " marble ") none []]

/-- Claim C5 is contradicted by the code (code bug): on a document whose
`dimensions` block contains a present-but-empty `height` element, the
dimension extraction of lines 538–540 dereferences `.text.strip()` on a
`None` text and raises `AttributeError` instead of yielding a sentinel;
the sibling field extractions on the same document (material, object type)
are guarded and degrade gracefully, as the claim describes. -/
theorem C5_empty_height_raises :
    extractDimensions (some c5Support) =
      Except.error "AttributeError: NoneType object has no attribute strip, at tei:height" ∧
    extractMaterial (some c5Support) = "marble" ∧
    extractObjectType (some c5Support) = "Not available" :=
  ⟨rfl, rfl, rfl⟩

/-! ## Claim C6 — edition-division selection -/

/-- Divisions of the body whose `type` attribute is `edition`, in document
order. -/
def editionDivs (body : Elem) : List Elem :=
  (teiDivs body).filter (fun d => (d.attr "type").getD "" == "edition")

theorem assignDiv_edition (s : Sections) (d : Elem) :
    (assignDiv s d).edition =
      if (d.attr "type").getD "" = "edition" then some d else s.edition := by
  cases s
  simp only [assignDiv]
  split_ifs <;> rfl

theorem foldl_edition (l : List Elem) (s0 : Sections) :
    (l.foldl assignDiv s0).edition =
      ((l.filter (fun d => (d.attr "type").getD "" == "edition")).getLast?).or s0.edition := by
  induction l generalizing s0 with
  | nil => rfl
  | cons d l ih =>
    rw [List.foldl_cons, ih]
    by_cases hd : (d.attr "type").getD "" = "edition"
    · have hb : ((d.attr "type").getD "" == "edition") = true := by simpa using hd
      have hf : (d :: l).filter (fun d => (d.attr "type").getD "" == "edition")
          = d :: l.filter (fun d => (d.attr "type").getD "" == "edition") := by
        simp [List.filter_cons, hb]
      rw [hf, assignDiv_edition, if_pos hd]
      cases hxs : l.filter (fun d => (d.attr "type").getD "" == "edition") with
      | nil => rfl
      | cons y ys =>
        rw [List.getLast?_cons_cons]
        have hne : (y :: ys).getLast?.isSome = true := by
          rw [List.getLast?_isSome]
          simp
        obtain ⟨z, hz⟩ := Option.isSome_iff_exists.mp hne
        rw [hz]
        rfl
    · have hb : ((d.attr "type").getD "" == "edition") = false := by
        simpa using hd
      have hf : (d :: l).filter (fun d => (d.attr "type").getD "" == "edition")
          = l.filter (fun d => (d.attr "type").getD "" == "edition") := by
        simp [List.filter_cons, hb]
      rw [hf, assignDiv_edition, if_neg hd]

/-- Edition division in ancient Greek, first in the body. -/
def c6DivGrc : Elem := Elem.mk (tei "div")
  [("type", "edition"), (xmlLang, "grc")] (some "alpha") none []

/-- Edition division in English, second in the body. -/
def c6DivEn : Elem := Elem.mk (tei "div")
  [("type", "edition"), (xmlLang, "en")] (some "beta") none []

/-- Body containing two divisions typed `edition`: the ancient-language one
first, the modern-language one second. -/
def c6Body : Elem := Elem.mk (tei "body") [] none none [c6DivGrc, c6DivEn]

/-- Claim C6 is refuted: with two divisions typed `edition`, the locator
keeps the last one in document order (here the English one) and never
consults the language attribute, instead of preferring the division whose
language denotes the ancient-language text. -/
theorem C6_counterexample :
    (locateSections c6Body).edition = some c6DivEn ∧
    Elem.attr c6DivEn xmlLang = some "en" ∧
    Elem.attr c6DivGrc xmlLang = some "grc" ∧
    (Elem.attr c6DivGrc "type").getD "" = "edition" ∧
    c6DivGrc ∈ teiDivs c6Body ∧
    c6DivEn ≠ c6DivGrc := by
  refine ⟨rfl, rfl, rfl, rfl, ?_, ?_⟩
  · have h : teiDivs c6Body = [c6DivGrc, c6DivEn] := rfl
    rw [h]
    exact List.mem_cons_self _ _
  · intro h
    simp [c6DivEn, c6DivGrc, Elem.mk.injEq] at h

/-- Claim C6, amended: the locator selects the last division typed
`edition` in document order, ignoring all language attributes; in
particular when exactly one edition division exists it is selected
regardless of its language attribute. -/
theorem C6_last_edition (body : Elem) :
    (locateSections body).edition = (editionDivs body).getLast? ∧
    (∀ d, editionDivs body = [d] → (locateSections body).edition = some d) := by
  have h1 : (locateSections body).edition = (editionDivs body).getLast? := by
    show ((teiDivs body).foldl assignDiv ⟨none, none, none, none, none⟩).edition = _
    rw [foldl_edition]
    show ((editionDivs body).getLast?).or none = _
    cases (editionDivs body).getLast? <;> rfl
  refine ⟨h1, ?_⟩
  intro d hd
  rw [h1, hd]
  rfl

/-- Body with a single edition division tagged as Latin. -/
def c6DivLa : Elem := Elem.mk (tei "div")
  [("type", "edition"), (xmlLang, "la")] (some "gamma") none []

/-- Single-edition body witnessing the amended C6. -/
def c6Single : Elem := Elem.mk (tei "body") [] none none
  [Elem.mk (tei "div") [("type", "translation")] none none [], c6DivLa]

theorem C6_last_edition_witness :
    editionDivs c6Single = [c6DivLa] ∧
      (locateSections c6Single).edition = some c6DivLa :=
  ⟨rfl, (C6_last_edition c6Single).2 c6DivLa rfl⟩

/-! ## Claim C7 — character-gap rendering -/

/-- Definitional unfolding of the `gap` dispatch branch: every condition
before the `gap` test is decidably false on the `gap` tag, so the branch
body is reached by pure reduction. -/
theorem renderGap_eq (a : List (String × String)) (x tl : Option String)
    (cs : List Elem) :
    renderChild (Elem.mk (tei "gap") a x tl cs) =
      (if aGet a "reason" = some "ellipsis" then some "..."
       else if aGet a "unit" = some "character" then
         if aGet a "extent" = some "unknown" then some "[.?]"
         else if aGet a "precision" = some "low" then
           some ("[." ++ (aGet a "quantity").getD "" ++ "]")
         else
           match (if (aGet a "quantity").getD "" = "" then some (0 : Int)
                  else pyToInt ((aGet a "quantity").getD "")) with
           | some k => some ("[" ++ dots k ++ "]")
           | none => none
       else if aGet a "unit" = some "line" then
         if aGet a "extent" = some "unknown" then
           some "(Lines: ? non transcribed)"
         else some ("(Lines: " ++ (aGet a "quantity").getD "" ++ " non transcribed)")
       else some "") := rfl

/-- Gap carrying `reason="ellipsis"` together with `unit="character"` and
`extent="unknown"`. -/
def c7Gap : Elem := Elem.mk (tei "gap")
  [("reason", "ellipsis"), ("unit", "character"), ("extent", "unknown"), ("quantity", "7")]
  none none []

/-- Claim C7 is refuted: a gap with `unit="character"` and
`extent="unknown"` that also carries `reason="ellipsis"` renders as `"..."`
(the ellipsis test precedes the unit dispatch), not as `"[.?]"` as the
claim requires for every character gap. -/
theorem C7_counterexample :
    renderChild c7Gap = some "..." ∧ renderChild c7Gap ≠ some "[.?]" ∧
      Elem.attr c7Gap "unit" = some "character" ∧
      Elem.attr c7Gap "extent" = some "unknown" :=
  ⟨rfl, by decide, rfl, rfl⟩

/-- Claim C7, amended: for every gap with `unit="character"` whose `reason`
attribute is not `ellipsis`: with `extent="unknown"` the rendering is
`"[.?]"` regardless of quantity or precision; otherwise with
`precision="low"` it is `"[.N]"` with `N` the quantity value; otherwise,
when the quantity is a non-empty integer literal of value `k`, it is `"["`
followed by `k` dots followed by `"]"` (a gap with `reason="ellipsis"`
renders as `"..."` instead, and a non-numeric quantity in the last case
raises, claims C2/C7 counterexamples). -/
theorem C7_gap_character (a : List (String × String)) (x tl : Option String)
    (cs : List Elem)
    (hre : aGet a "reason" ≠ some "ellipsis")
    (hu : aGet a "unit" = some "character") :
    (aGet a "extent" = some "unknown" →
      renderChild (Elem.mk (tei "gap") a x tl cs) = some "[.?]") ∧
    (aGet a "extent" ≠ some "unknown" → aGet a "precision" = some "low" →
      renderChild (Elem.mk (tei "gap") a x tl cs)
        = some ("[." ++ (aGet a "quantity").getD "" ++ "]")) ∧
    (∀ k : Int, aGet a "extent" ≠ some "unknown" → aGet a "precision" ≠ some "low" →
      (aGet a "quantity").getD "" ≠ "" →
      pyToInt ((aGet a "quantity").getD "") = some k →
      renderChild (Elem.mk (tei "gap") a x tl cs) = some ("[" ++ dots k ++ "]")) := by
  refine ⟨?_, ?_, ?_⟩
  · intro hex
    rw [renderGap_eq, if_neg hre, if_pos hu, if_pos hex]
  · intro hex hp
    rw [renderGap_eq, if_neg hre, if_pos hu, if_neg hex, if_pos hp]
  · intro k hex hp hq hk
    rw [renderGap_eq, if_neg hre, if_pos hu, if_neg hex, if_neg hp, if_neg hq, hk]

theorem C7_gap_character_witness :
    renderChild (Elem.mk (tei "gap") [("unit", "character"), ("extent", "unknown")] none none [])
      = some "[.?]" ∧
    renderChild (Elem.mk (tei "gap")
        [("unit", "character"), ("precision", "low"), ("quantity", "12")] none none [])
      = some "[.12]" ∧
    renderChild (Elem.mk (tei "gap") [("unit", "character"), ("quantity", "3")] none none [])
      = some "[...]" :=
  ⟨(C7_gap_character [("unit", "character"), ("extent", "unknown")] none none []
      (by decide) rfl).1 rfl,
   (C7_gap_character [("unit", "character"), ("precision", "low"), ("quantity", "12")]
      none none [] (by decide) rfl).2.1 (by decide) rfl,
   (C7_gap_character [("unit", "character"), ("quantity", "3")] none none []
      (by decide) rfl).2.2 3 (by decide) (by decide) (by decide) rfl⟩

/-! ## Claim C8 — batch isolation of malformed documents -/

theorem processBatch_append (xs ys : List RawFile) :
    (processBatch (xs ++ ys)).fst = (processBatch xs).fst ++ (processBatch ys).fst ∧
    (processBatch (xs ++ ys)).snd = (processBatch xs).snd ++ (processBatch ys).snd := by
  induction xs with
  | nil => exact ⟨rfl, rfl⟩
  | cons f xs ih =>
    simp only [List.cons_append, processBatch]
    cases hp : parseTei f with
    | mk r ds =>
      cases r with
      | none => simp [ih.1, ih.2]
      | some root => simp [ih.1, ih.2]

/-- Claim C8 holds: in a batch, a file whose stream is not well-formed XML
contributes exactly one malformed-XML error diagnostic and no parsed
document, and every other file in the batch is parsed exactly as it would
be in a batch without the malformed file. -/
theorem C8_batch_isolation (xs ys : List RawFile) (name msg : String) :
    (processBatch (xs ++ RawFile.malformed name msg :: ys)).fst
      = (processBatch (xs ++ ys)).fst ∧
    (processBatch (xs ++ ys)).fst
      = (processBatch xs).fst ++ (processBatch ys).fst ∧
    (processBatch (xs ++ RawFile.malformed name msg :: ys)).snd
      = (processBatch xs).snd
        ++ Diag.err ("XML Parsing Error in file " ++ name ++ ": " ++ msg)
          :: (processBatch ys).snd := by
  have h1 := processBatch_append xs (RawFile.malformed name msg :: ys)
  have h2 := processBatch_append xs ys
  have hm : processBatch (RawFile.malformed name msg :: ys)
      = ((processBatch ys).fst,
         Diag.err ("XML Parsing Error in file " ++ name ++ ": " ++ msg)
           :: (processBatch ys).snd) := by
    simp [processBatch, parseTei]
  refine ⟨?_, h2.1, ?_⟩
  · rw [h1.1, hm, h2.1]
  · rw [h1.2, hm]

/-! ## Claim C9 — choice rendering stringifies missing text as None -/

/-- Definitional unfolding of the `choice` dispatch branch. -/
theorem renderChoice_eq (a : List (String × String)) (x tl : Option String)
    (cs : List Elem) :
    renderChild (Elem.mk (tei "choice") a x tl cs) =
      (match findT cs "corr", findT cs "sic", findT cs "reg", findT cs "orig" with
       | some co, some si, _, _ =>
         some ("<" ++ pyFmt co.text ++ "|corr|" ++ pyFmt si.text ++ ">")
       | _, _, some rg, some og =>
         some ("<" ++ pyFmt og.text ++ "|reg|" ++ pyFmt rg.text ++ ">")
       | _, _, _, _ => some (itertext (Elem.mk (tei "choice") a x tl cs))) := rfl

/-- Claim C9 holds: in a `choice` with both `corr` and `sic` children, a
child whose text is `None` is stringified as the literal `"None"` in its
slot of `<corr|corr|sic>`; likewise for the `reg`/`orig` pair (whose slots
are `<orig|reg|reg>`). -/
theorem C9_choice_none (a : List (String × String)) (x tl : Option String)
    (cs : List Elem) (co si rg og : Elem) :
    ((findT cs "corr" = some co → findT cs "sic" = some si → co.text = none →
      renderChild (Elem.mk (tei "choice") a x tl cs)
        = some ("<None|corr|" ++ pyFmt si.text ++ ">")) ∧
     (findT cs "corr" = some co → findT cs "sic" = some si → si.text = none →
      renderChild (Elem.mk (tei "choice") a x tl cs)
        = some ("<" ++ pyFmt co.text ++ "|corr|None>"))) ∧
    ((findT cs "corr" = none → findT cs "reg" = some rg → findT cs "orig" = some og →
      og.text = none →
      renderChild (Elem.mk (tei "choice") a x tl cs)
        = some ("<None|reg|" ++ pyFmt rg.text ++ ">")) ∧
     (findT cs "corr" = none → findT cs "reg" = some rg → findT cs "orig" = some og →
      rg.text = none →
      renderChild (Elem.mk (tei "choice") a x tl cs)
        = some ("<" ++ pyFmt og.text ++ "|reg|None>"))) := by
  refine ⟨⟨?_, ?_⟩, ?_, ?_⟩
  · intro hco hsi htx
    rw [renderChoice_eq, hco, hsi]
    simp [htx, pyFmt, String.append_assoc]
  · intro hco hsi htx
    rw [renderChoice_eq, hco, hsi]
    simp [htx, pyFmt, String.append_assoc]
  · intro hco hrg hog htx
    rw [renderChoice_eq, hco, hrg, hog]
    simp [htx, pyFmt, String.append_assoc]
  · intro hco hrg hog htx
    rw [renderChoice_eq, hco, hrg, hog]
    simp [htx, pyFmt, String.append_assoc]

/-- Correction child with no text. -/
def c9Corr : Elem := Elem.mk (tei "corr") [] none none []

/-- Attested-error child with text. -/
def c9Sic : Elem := Elem.mk (tei "sic") [] (some "peccatum") none []

/-- Regularization child with text. -/
def c9Reg : Elem := Elem.mk (tei "reg") [] (some "norma") none []

/-- Original-form child with no text. -/
def c9Orig : Elem := Elem.mk (tei "orig") [] none none []

theorem C9_choice_none_witness :
    renderChild (Elem.mk (tei "choice") [] none none [c9Corr, c9Sic])
      = some ("<None|corr|" ++ pyFmt (Elem.text c9Sic) ++ ">") ∧
    renderChild (Elem.mk (tei "choice") [] none none [c9Reg, c9Orig])
      = some ("<None|reg|" ++ pyFmt (Elem.text c9Reg) ++ ">") :=
  ⟨((C9_choice_none [] none none [c9Corr, c9Sic] c9Corr c9Sic c9Reg c9Orig).1).1
      rfl rfl rfl,
   ((C9_choice_none [] none none [c9Reg, c9Orig] c9Corr c9Sic c9Reg c9Orig).2).1
      rfl rfl rfl rfl⟩

/-! ## Claim C10 — expan without abbr/ex pair contributes nothing -/

/-- Definitional unfolding of the `expan` dispatch branch. -/
theorem renderExpan_eq (a : List (String × String)) (x tl : Option String)
    (cs : List Elem) :
    renderChild (Elem.mk (tei "expan") a x tl cs) =
      (match findT cs "abbr", findT cs "ex" with
       | some ab, some exEl =>
         some ((ab.text.getD "") ++ "(" ++ (exEl.text.getD "")
           ++ (if exEl.attr "cert" = some "low" then "?" else "") ++ ")")
       | _, _ => some "") := rfl

/-- Claim C10 holds: an `expan` element lacking an `abbr` child or lacking
an `ex` child contributes the empty rendering — its own text and all
descendant text are dropped — while its tail text is still emitted by the
child loop (`childUnit` yields exactly the tail). -/
theorem C10_expan_missing (a : List (String × String)) (x tl : Option String)
    (cs : List Elem)
    (h : findT cs "abbr" = none ∨ findT cs "ex" = none) :
    renderChild (Elem.mk (tei "expan") a x tl cs) = some "" ∧
    childUnit (Elem.mk (tei "expan") a x tl cs) = some (tl.getD "") := by
  have hr : renderChild (Elem.mk (tei "expan") a x tl cs) = some "" := by
    rw [renderExpan_eq]
    rcases h with h | h
    · rw [h]
    · cases hab : findT cs "abbr" with
      | none => rw [h]
      | some ab => rw [h]
  refine ⟨hr, ?_⟩
  simp [childUnit, hr, Elem.tail]

/-- Expansion element with only an `abbr` child, plus its own text and
descendant text, and a tail. -/
def c10Expan : Elem := Elem.mk (tei "expan") [] (some "own")
  (some " tail") [Elem.mk (tei "abbr") [] (some "Imp") none []]

theorem C10_expan_missing_witness :
    (findT (Elem.children c10Expan) "abbr" = none ∨
      findT (Elem.children c10Expan) "ex" = none) ∧
    renderChild c10Expan = some "" ∧ childUnit c10Expan = some " tail" :=
  ⟨Or.inr rfl,
   (C10_expan_missing [] (some "own") (some " tail") (Elem.children c10Expan)
      (Or.inr rfl)).1,
   (C10_expan_missing [] (some "own") (some " tail") (Elem.children c10Expan)
      (Or.inr rfl)).2⟩

end TeiApp
